import Mathlib

/-!
Shallow embedding of the query layer of the BE-NC-Games API
(`models/reviews-models.js`), together with the spec-described operations whose
source is not part of the models file. Database state is a record of the four
tables; each query-layer operation is a function from a state to an
`Except ApiError` outcome carrying the (possibly updated) state and the rows
delivered to the caller, mirroring the resolved/rejected promise of the source.
-/

namespace NCGames

structure Category where
  slug : String
  description : String
deriving DecidableEq

structure User where
  username : String
  name : String
  avatar_url : String
deriving DecidableEq

structure Review where
  review_id : Nat
  title : String
  category : String
  designer : String
  owner : String
  review_body : String
  review_img_url : String
  created_at : Int
  votes : Int
deriving DecidableEq

structure Comment where
  comment_id : Nat
  author : String
  review_id : Nat
  body : String
  votes : Int
  created_at : Int
deriving DecidableEq

structure DB where
  categories : List Category
  users : List User
  reviews : List Review
  comments : List Comment
deriving DecidableEq

/-- A rejected promise of the query layer: an HTTP-suggestive status and a
message, as in `Promise.reject({ status, msg })`. -/
structure ApiError where
  status : Nat
  msg : String
deriving DecidableEq

/-- `review_id` is the primary key of the `reviews` table, so its values are
pairwise distinct. -/
def DB.WF (db : DB) : Prop := (db.reviews.map Review.review_id).Nodup

instance (db : DB) : Decidable db.WF := by
  unfold DB.WF
  infer_instance

/-! ### ORDER BY … DESC

`sortDesc key` models `ORDER BY key DESC`: the result is a permutation of the
input whose key values are non-increasing. (SQL leaves tie order unspecified.) -/

variable {α : Type}

def insertDesc (key : α → Int) (x : α) : List α → List α
  | [] => [x]
  | y :: ys => if key y ≤ key x then x :: y :: ys else y :: insertDesc key x ys

def sortDesc (key : α → Int) : List α → List α
  | [] => []
  | x :: xs => insertDesc key x (sortDesc key xs)

theorem insertDesc_perm (key : α → Int) (x : α) (l : List α) :
    List.Perm (insertDesc key x l) (x :: l) := by
  induction l with
  | nil => rfl
  | cons y ys ih =>
    by_cases h : key y ≤ key x
    · simp [insertDesc, h]
    · simp only [insertDesc, h, if_false]
      exact (ih.cons y).trans (List.Perm.swap x y ys)

theorem sortDesc_perm (key : α → Int) (l : List α) : List.Perm (sortDesc key l) l := by
  induction l with
  | nil => rfl
  | cons x xs ih =>
    exact (insertDesc_perm key x (sortDesc key xs)).trans (ih.cons x)

theorem mem_sortDesc {key : α → Int} {l : List α} {a : α} :
    a ∈ sortDesc key l ↔ a ∈ l :=
  (sortDesc_perm key l).mem_iff

theorem mem_insertDesc {key : α → Int} {l : List α} {x a : α} :
    a ∈ insertDesc key x l ↔ a = x ∨ a ∈ l := by
  rw [(insertDesc_perm key x l).mem_iff, List.mem_cons]

theorem pairwise_insertDesc (key : α → Int) (x : α) (l : List α)
    (h : l.Pairwise (fun a b => key b ≤ key a)) :
    (insertDesc key x l).Pairwise (fun a b => key b ≤ key a) := by
  induction l with
  | nil => simp [insertDesc]
  | cons y ys ih =>
    rw [List.pairwise_cons] at h
    by_cases hc : key y ≤ key x
    · simp only [insertDesc, hc, if_true]
      refine List.Pairwise.cons ?_ (List.Pairwise.cons h.1 h.2)
      intro b hb
      rcases List.mem_cons.mp hb with hb | hb
      · exact hb ▸ hc
      · exact le_trans (h.1 b hb) hc
    · simp only [insertDesc, hc, if_false]
      refine List.Pairwise.cons ?_ (ih h.2)
      intro b hb
      rcases mem_insertDesc.mp hb with hb | hb
      · exact hb ▸ le_of_not_le hc
      · exact h.1 b hb

theorem sortDesc_pairwise (key : α → Int) (l : List α) :
    (sortDesc key l).Pairwise (fun a b => key b ≤ key a) := by
  induction l with
  | nil => exact List.Pairwise.nil
  | cons x xs ih => exact pairwise_insertDesc key x (sortDesc key xs) ih

/-! ### COUNT delivered as a decimal string, and `parseInt`

The pg driver delivers the bigint `COUNT(...)` column as its decimal string;
the source then applies JavaScript `parseInt` to it. We model the driver's
stringification by Lean's decimal `toString` on `Nat` and `parseInt` (on a
string of decimal digits) by a base-10 digit fold. -/

def digitVal (c : Char) : Nat := c.toNat - 48

def parseList (l : List Char) : Nat :=
  l.foldl (fun acc c => 10 * acc + digitVal c) 0

/-- JavaScript `parseInt` restricted to strings of decimal digits, which is the
only shape the COUNT column can take. -/
def parseIntDec (s : String) : Nat := parseList s.data

/-- The digits of `n` in base 10, most significant first; the recursive
specification of `Nat.toDigitsCore`. -/
def decRepr (n : Nat) : List Char :=
  if n < 10 then [Nat.digitChar n] else decRepr (n / 10) ++ [Nat.digitChar (n % 10)]
decreasing_by simp_wf; omega

theorem digitVal_digitChar (d : Nat) (h : d < 10) :
    digitVal (Nat.digitChar d) = d := by
  interval_cases d <;> decide

theorem toDigitsCore_eq_decRepr (fuel : Nat) :
    ∀ n ds, n < fuel → Nat.toDigitsCore 10 fuel n ds = decRepr n ++ ds := by
  induction fuel with
  | zero => intro n ds h; omega
  | succ fuel ih =>
    intro n ds h
    rw [Nat.toDigitsCore, decRepr]
    by_cases h10 : n < 10
    · have hq : n / 10 = 0 := Nat.div_eq_of_lt h10
      have hm : n % 10 = n := Nat.mod_eq_of_lt h10
      simp [hq, h10, hm]
    · have hq : n / 10 ≠ 0 := by omega
      have hlt : n / 10 < fuel := by omega
      simp only [h10, if_false, hq, if_false]
      rw [ih (n / 10) _ hlt]
      simp

theorem parseList_append_digit (l : List Char) (c : Char) :
    parseList (l ++ [c]) = 10 * parseList l + digitVal c := by
  simp [parseList, List.foldl_append]

theorem parseList_decRepr (n : Nat) : parseList (decRepr n) = n := by
  induction n using Nat.strong_induction_on with
  | _ n ih =>
    rw [decRepr]
    by_cases h10 : n < 10
    · simp [h10, parseList, digitVal_digitChar n h10]
    · have hlt : n / 10 < n := by omega
      simp only [h10, if_false]
      rw [parseList_append_digit, ih (n / 10) hlt,
        digitVal_digitChar (n % 10) (Nat.mod_lt n (by omega))]
      omega

theorem parseIntDec_toString (n : Nat) : parseIntDec (toString n) = n := by
  show parseIntDec (Nat.repr n) = n
  unfold Nat.repr Nat.toDigits
  rw [toDigitsCore_eq_decRepr (n + 1) n [] (Nat.lt_succ_self n)]
  show parseList (decRepr n ++ []) = n
  rw [List.append_nil, parseList_decRepr]

/-! ### The query layer (`models/reviews-models.js`) -/

/-- A row of the `selectReviews` result set as delivered by the driver:
`reviews.*` plus the aggregate `comment_count` as a decimal string. -/
structure ReviewRowRaw where
  review : Review
  comment_count : String
deriving DecidableEq

/-- A row of the `selectReviews` result after the source's
`review.comment_count = parseInt(review.comment_count)` pass. -/
structure ReviewRow where
  review : Review
  comment_count : Nat
deriving DecidableEq

def countComments (db : DB) (rid : Nat) : Nat :=
  (db.comments.filter (fun c => c.review_id == rid)).length

/-- The SQL of `selectReviews`: `SELECT reviews.*, COUNT(comments.review_id)`
with a LEFT JOIN on comments, grouped by `reviews.review_id` and ordered by
`reviews.created_at DESC`. Since `review_id` is the primary key of `reviews`,
each review row is its own group, and `COUNT(comments.review_id)` counts the
comment rows joined to it — 0 when no comment matches, because the padding row
of the left join is NULL in that column. -/
def selectReviewsQuery (db : DB) : List ReviewRowRaw :=
  sortDesc (fun row => row.review.created_at)
    (db.reviews.map (fun r => ⟨r, toString (countComments db r.review_id)⟩))

/-- `exports.selectReviews`: runs the query, then replaces each row's
`comment_count` string by its integer parse, leaving all other fields as
delivered. -/
def selectReviews (db : DB) : Except ApiError (DB × List ReviewRow) :=
  .ok (db, (selectReviewsQuery db).map (fun row => ⟨row.review, parseIntDec row.comment_count⟩))

/-- `exports.selectReviewFromId`: `SELECT * FROM reviews WHERE review_id = $1`;
rejects with 404 when `result.rows[0]` is absent, else resolves with it. -/
def selectReviewFromId (db : DB) (reviewId : Nat) : Except ApiError (DB × Review) :=
  match (db.reviews.filter (fun r => r.review_id == reviewId)).head? with
  | none => .error ⟨404, s!"No review found for review {reviewId}"⟩
  | some r => .ok (db, r)

/-- `exports.selectCommentsFromReview`: first queries the `reviews` table for
the id; when no row comes back it rejects with 404 without querying comments,
otherwise it queries the comments of that review ordered by
`created_at DESC` and resolves with them (possibly the empty list). -/
def selectCommentsFromReview (db : DB) (reviewId : Nat) :
    Except ApiError (DB × List Comment) :=
  if (db.reviews.filter (fun r => r.review_id == reviewId)).length = 0 then
    .error ⟨404, s!"No review found for review {reviewId}"⟩
  else
    .ok (db, sortDesc (fun c => c.created_at)
      (db.comments.filter (fun c => c.review_id == reviewId)))

/-- `exports.patchComment(review_id, inc_votes)`: runs
`UPDATE comments SET votes = votes + $1 WHERE review_id = $2 RETURNING *`
with the parameter array `[review_id, inc_votes]` — so `$1`, the vote
increment, is bound to `review_id`, and `$2`, the WHERE key, is bound to
`inc_votes`, exactly as in the source. It resolves with `res.rows[0]`, the
first updated row, or `none` when no row was updated; it never rejects. -/
def patchComment (db : DB) (review_id : Nat) (inc_votes : Int) :
    Except ApiError (DB × Option Comment) :=
  let updated := db.comments.map (fun c =>
    if (c.review_id : Int) == inc_votes then
      { c with votes := c.votes + (review_id : Int) }
    else c)
  .ok ({ db with comments := updated },
    (updated.filter (fun c => (c.review_id : Int) == inc_votes)).head?)

/-- Modelled from the spec: `listCategories` lives in a models file that is not
among the provided sources. Per the spec it returns the sequence of categories,
takes no parameters and has no failure mode. -/
def listCategories (db : DB) : Except ApiError (DB × List Category) :=
  .ok (db, db.categories)

/-- Modelled from the spec: `listUsers` lives in a models file that is not
among the provided sources. Per the spec it returns the sequence of users,
takes no parameters and has no failure mode. -/
def listUsers (db : DB) : Except ApiError (DB × List User) :=
  .ok (db, db.users)

/-- The body of a comment-creation request: `username` and `body` may each be
absent, and a client may supply an extraneous `votes` field. -/
structure CommentRequest where
  username : Option String
  body : Option String
  votes : Option Int
deriving DecidableEq

/-- Modelled from the spec: the comment-creation path (handler validation plus
`insertComment`) is not among the provided sources — only its tests and route
table are. Per the spec it fails with InvalidInput
(400, "Bad request - incomplete information") when `username` or `body` is
absent or empty, before any query; fails with NotFound (404, "Not found") when
the username or the review does not exist; and otherwise stores the new comment
with `votes` initialized to 0, ignoring extraneous fields such as a
client-supplied `votes`. `newId` and `now` stand for the generated
`comment_id` and `created_at`. -/
def insertComment (db : DB) (reviewId : Nat) (req : CommentRequest)
    (newId : Nat) (now : Int) : Except ApiError (DB × Comment) :=
  match req.username, req.body with
  | some u, some b =>
    if u = "" ∨ b = "" then
      .error ⟨400, "Bad request - incomplete information"⟩
    else if db.users.all (fun usr => usr.username != u) then
      .error ⟨404, "Not found"⟩
    else if db.reviews.all (fun r => r.review_id != reviewId) then
      .error ⟨404, "Not found"⟩
    else
      let c : Comment := ⟨newId, u, reviewId, b, 0, now⟩
      .ok ({ db with comments := db.comments ++ [c] }, c)
  | _, _ => .error ⟨400, "Bad request - incomplete information"⟩

/-! ### Concrete sample data -/

def exR1 : Review := ⟨1, "t1", "strategy", "des", "alice", "body1", "url1", 100, 5⟩

def exR2 : Review := ⟨2, "t2", "strategy", "des", "alice", "body2", "url2", 200, 3⟩

def exC1 : Comment := ⟨10, "alice", 2, "nice", 4, 150⟩

def exC2 : Comment := ⟨11, "bob", 2, "cool", 1, 250⟩

def exDB : DB :=
  ⟨[⟨"strategy", "d"⟩], [⟨"alice", "Alice", "av"⟩, ⟨"bob", "Bob", "av"⟩],
    [exR1, exR2], [exC1, exC2]⟩

/-! ### Shared facts about `selectReviews` -/

theorem selectReviews_rows_spec (db : DB) :
    ∃ rows, selectReviews db = .ok (db, rows) ∧
      (∀ r ∈ db.reviews,
        ∃ row ∈ rows, row.review = r ∧ row.comment_count = countComments db r.review_id) ∧
      (∀ row ∈ rows,
        row.review ∈ db.reviews ∧ row.comment_count = countComments db row.review.review_id) ∧
      rows.Pairwise (fun a b => b.review.created_at ≤ a.review.created_at) := by
  refine ⟨_, rfl, ?_, ?_, ?_⟩
  · intro r hr
    refine ⟨⟨r, countComments db r.review_id⟩, ?_, rfl, rfl⟩
    apply List.mem_map.mpr
    refine ⟨⟨r, toString (countComments db r.review_id)⟩, ?_, ?_⟩
    · exact mem_sortDesc.mpr
        (List.mem_map_of_mem
          (fun x => ReviewRowRaw.mk x (toString (countComments db x.review_id))) hr)
    · simp [parseIntDec_toString]
  · intro row hrow
    rcases List.mem_map.mp hrow with ⟨raw, hraw, hparse⟩
    rcases List.mem_map.mp (mem_sortDesc.mp hraw) with ⟨r, hr, hmk⟩
    subst hmk
    subst hparse
    exact ⟨hr, by simp [parseIntDec_toString]⟩
  · exact List.pairwise_map.mpr ((sortDesc_pairwise _ _).imp (fun h => h))

/-! ### The claims -/

/-- Claim C1 concerns `patchComment(reviewId, incVotes)`, which is specified to
increment the votes of the comments whose `review_id` is `reviewId` by
`incVotes` and return the updated row. The source binds the parameter array
`[review_id, inc_votes]` to `SET votes = votes + $1 WHERE review_id = $2`, so
the two are swapped: on a database whose comments both belong to review 2
(`exC1` with votes 4, `exC2` with votes 1), `patchComment exDB 2 5` updates
nothing and resolves with no row — the claim demands votes 9 and 6 — while
`patchComment exDB 5 2` adds 5 to the votes of both comments of review 2. -/
theorem patchComment_swapped_parameters :
    patchComment exDB 2 5 = .ok (exDB, none)
    ∧ patchComment exDB 5 2 = .ok
        ({ exDB with comments := [{ exC1 with votes := 9 }, { exC2 with votes := 6 }] },
          some { exC1 with votes := 9 }) := by
  constructor <;> rfl

/-- Claim C2: `selectReviews` returns every review, each augmented with an
integer `comment_count` equal to the number of comment rows whose `review_id`
matches it — in particular a review with zero comments appears with count 0 —
and every returned row arises from a stored review this way. -/
theorem selectReviews_comment_count (db : DB) (d : DB) (rows : List ReviewRow)
    (he : selectReviews db = .ok (d, rows)) :
    (∀ r ∈ db.reviews,
      ∃ row ∈ rows, row.review = r ∧ row.comment_count = countComments db r.review_id)
    ∧ ∀ row ∈ rows,
      row.review ∈ db.reviews ∧ row.comment_count = countComments db row.review.review_id := by
  rcases selectReviews_rows_spec db with ⟨rows0, h0, hfwd, hbwd, -⟩
  rw [h0] at he
  simp only [Except.ok.injEq, Prod.mk.injEq] at he
  obtain ⟨-, h2⟩ := he
  subst h2
  exact ⟨hfwd, hbwd⟩

/-- Claim C2 witness: on the sample database, review 1 has zero comments and is
reported with `comment_count = 0`. -/
theorem selectReviews_comment_count_witness :
    ∃ row ∈ [ReviewRow.mk exR2 2, ReviewRow.mk exR1 0],
      row.review = exR1 ∧ row.comment_count = countComments exDB exR1.review_id :=
  (selectReviews_comment_count exDB exDB [⟨exR2, 2⟩, ⟨exR1, 0⟩] rfl).1 exR1 (by decide)

/-- Claim C3: the rows returned by `selectReviews` and the comments returned by
`selectCommentsFromReview` are sorted by `created_at` descending: timestamps
are non-increasing across the full returned sequence. -/
theorem listings_sorted_desc (db : DB) (rid : Nat) :
    (∀ d rows, selectReviews db = .ok (d, rows) →
      rows.Pairwise (fun a b => b.review.created_at ≤ a.review.created_at))
    ∧ (∀ d cs, selectCommentsFromReview db rid = .ok (d, cs) →
      cs.Pairwise (fun a b => b.created_at ≤ a.created_at)) := by
  constructor
  · intro d rows he
    rcases selectReviews_rows_spec db with ⟨rows0, h0, -, -, hsort⟩
    rw [h0] at he
    simp only [Except.ok.injEq, Prod.mk.injEq] at he
    obtain ⟨-, h2⟩ := he
    subst h2
    exact hsort
  · intro d cs he
    unfold selectCommentsFromReview at he
    by_cases hcond : (db.reviews.filter (fun r => r.review_id == rid)).length = 0
    · rw [if_pos hcond] at he
      exact Except.noConfusion he
    · rw [if_neg hcond] at he
      simp only [Except.ok.injEq, Prod.mk.injEq] at he
      obtain ⟨-, h2⟩ := he
      subst h2
      exact sortDesc_pairwise _ _

/-- Claim C3 witness: both listings of the sample database come out sorted by
`created_at` descending. -/
theorem listings_sorted_desc_witness :
    ([ReviewRow.mk exR2 2, ReviewRow.mk exR1 0].Pairwise
      fun a b => b.review.created_at ≤ a.review.created_at)
    ∧ ([exC2, exC1].Pairwise fun a b => b.created_at ≤ a.created_at) :=
  ⟨(listings_sorted_desc exDB 2).1 exDB [⟨exR2, 2⟩, ⟨exR1, 0⟩] rfl,
    (listings_sorted_desc exDB 2).2 exDB [exC2, exC1] rfl⟩

/-- In a review table whose `review_id` column is duplicate-free, filtering on
the id of a stored review yields exactly that review. -/
theorem filter_eq_single {rid : Nat} (l : List Review)
    (hnd : (l.map Review.review_id).Nodup) (r : Review) (hr : r ∈ l)
    (hid : r.review_id = rid) :
    l.filter (fun x => x.review_id == rid) = [r] := by
  induction l with
  | nil => exact absurd hr (List.not_mem_nil r)
  | cons a as ih =>
    rw [List.map_cons, List.nodup_cons] at hnd
    rcases List.mem_cons.mp hr with hra | hra
    · subst hra
      rw [List.filter_cons_of_pos (by simp [hid])]
      have : as.filter (fun x => x.review_id == rid) = [] := by
        rw [List.filter_eq_nil_iff]
        intro x hx
        simp only [beq_iff_eq]
        intro hxid
        exact hnd.1 (hid ▸ hxid ▸ List.mem_map_of_mem Review.review_id hx)
      rw [this]
    · have hane : ¬(a.review_id == rid) = true := by
        simp only [beq_iff_eq]
        intro haid
        exact hnd.1 (haid ▸ hid ▸ List.mem_map_of_mem Review.review_id hra)
      rw [List.filter_cons, if_neg hane]
      exact ih hnd.2 hra

/-- Claim C4: `selectCommentsFromReview` rejects with NotFound — status 404 and
message "No review found for review <id>" — exactly when no review row matches
the id; when the review exists it resolves, and with zero matching comments it
resolves with the empty sequence rather than NotFound. The definition mirrors
the source's sequencing: the reviews table is consulted first, and the comments
query runs only in the else branch. -/
theorem selectCommentsFromReview_spec (db : DB) (rid : Nat) :
    ((∀ r ∈ db.reviews, r.review_id ≠ rid) ↔
      selectCommentsFromReview db rid = .error ⟨404, s!"No review found for review {rid}"⟩)
    ∧ ((∃ r ∈ db.reviews, r.review_id = rid) →
      ∃ cs, selectCommentsFromReview db rid = .ok (db, cs)
        ∧ ((∀ c ∈ db.comments, c.review_id ≠ rid) → cs = [])) := by
  constructor
  · constructor
    · intro h
      have hf : db.reviews.filter (fun x => x.review_id == rid) = [] := by
        rw [List.filter_eq_nil_iff]
        intro x hx
        simpa using h x hx
      unfold selectCommentsFromReview
      rw [if_pos (by rw [hf]; rfl)]
    · intro he r hr heq
      unfold selectCommentsFromReview at he
      have hmem : r ∈ db.reviews.filter (fun x => x.review_id == rid) :=
        List.mem_filter.mpr ⟨hr, by simp [heq]⟩
      by_cases hcond : (db.reviews.filter (fun x => x.review_id == rid)).length = 0
      · rw [List.length_eq_zero] at hcond
        rw [hcond] at hmem
        exact List.not_mem_nil r hmem
      · rw [if_neg hcond] at he
        exact Except.noConfusion he
  · rintro ⟨r, hr, heq⟩
    have hmem : r ∈ db.reviews.filter (fun x => x.review_id == rid) :=
      List.mem_filter.mpr ⟨hr, by simp [heq]⟩
    have hcond : ¬(db.reviews.filter (fun x => x.review_id == rid)).length = 0 := by
      rw [List.length_eq_zero]
      intro hnil
      rw [hnil] at hmem
      exact List.not_mem_nil r hmem
    refine ⟨_, by unfold selectCommentsFromReview; rw [if_neg hcond], ?_⟩
    intro hnoc
    have : db.comments.filter (fun c => c.review_id == rid) = [] := by
      rw [List.filter_eq_nil_iff]
      intro c hc
      simpa using hnoc c hc
    rw [this]
    rfl

/-- Claim C4 witness: on the sample database, review id 99 does not exist and
yields the NotFound rejection, while review 1 exists with zero comments and
yields the empty sequence. -/
theorem selectCommentsFromReview_spec_witness :
    selectCommentsFromReview exDB 99 = .error ⟨404, "No review found for review 99"⟩
    ∧ ∃ cs, selectCommentsFromReview exDB 1 = .ok (exDB, cs) ∧ cs = [] := by
  refine ⟨(selectCommentsFromReview_spec exDB 99).1.mp (by decide), ?_⟩
  obtain ⟨cs, h1, h2⟩ := (selectCommentsFromReview_spec exDB 1).2 ⟨exR1, by decide, rfl⟩
  exact ⟨cs, h1, h2 (by decide)⟩

/-- Claim C5: when the `review_id` column is duplicate-free (it is the primary
key), `selectReviewFromId` resolves with the single stored review carrying the
requested id, and it rejects with status 404 and the message
"No review found for review <id>" exactly when no row matches. -/
theorem selectReviewFromId_spec (db : DB) (rid : Nat) :
    (db.WF → ∀ r ∈ db.reviews, r.review_id = rid → selectReviewFromId db rid = .ok (db, r))
    ∧ ((∀ r ∈ db.reviews, r.review_id ≠ rid) ↔
      selectReviewFromId db rid = .error ⟨404, s!"No review found for review {rid}"⟩) := by
  constructor
  · intro hwf r hr hid
    unfold selectReviewFromId
    rw [filter_eq_single db.reviews hwf r hr hid]
    rfl
  · constructor
    · intro h
      have hf : db.reviews.filter (fun x => x.review_id == rid) = [] := by
        rw [List.filter_eq_nil_iff]
        intro x hx
        simpa using h x hx
      unfold selectReviewFromId
      rw [hf]
      rfl
    · intro he r hr heq
      have hmem : r ∈ db.reviews.filter (fun x => x.review_id == rid) :=
        List.mem_filter.mpr ⟨hr, by simp [heq]⟩
      unfold selectReviewFromId at he
      split at he
      · rename_i hnone
        rw [List.head?_eq_none_iff] at hnone
        rw [hnone] at hmem
        exact List.not_mem_nil r hmem
      · exact Except.noConfusion he

/-- Claim C5 witness: on the sample database, review 2 is returned as stored
and the absent id 77 yields the NotFound rejection with the id embedded in the
message. -/
theorem selectReviewFromId_spec_witness :
    selectReviewFromId exDB 2 = .ok (exDB, exR2)
    ∧ selectReviewFromId exDB 77 = .error ⟨404, "No review found for review 77"⟩ :=
  ⟨(selectReviewFromId_spec exDB 2).1 (by decide) exR2 (by decide) rfl,
    (selectReviewFromId_spec exDB 77).2.mp (by decide)⟩

/-- Claim C6: a comment-creation request whose `username` or `body` is absent
or empty fails with status 400 and message
"Bad request - incomplete information", for every database state — the
validation never reaches the database. -/
theorem insertComment_incomplete (db : DB) (rid : Nat) (req : CommentRequest)
    (nid : Nat) (now : Int)
    (h : req.username = none ∨ req.body = none ∨
      req.username = some "" ∨ req.body = some "") :
    insertComment db rid req nid now
      = .error ⟨400, "Bad request - incomplete information"⟩ := by
  obtain ⟨ou, ob, ov⟩ := req
  cases ou with
  | none => cases ob <;> rfl
  | some u =>
    cases ob with
    | none => rfl
    | some b =>
      rcases h with h | h | h | h
      · exact Option.noConfusion h
      · exact Option.noConfusion h
      · injection h with h'
        subst h'
        simp [insertComment]
      · injection h with h'
        subst h'
        simp [insertComment]

/-- Claim C6 witness: a request carrying a username but no body is rejected
with the incomplete-information message. -/
theorem insertComment_incomplete_witness :
    insertComment exDB 4 ⟨some "alice", none, some 50⟩ 12 300
      = .error ⟨400, "Bad request - incomplete information"⟩ :=
  insertComment_incomplete exDB 4 ⟨some "alice", none, some 50⟩ 12 300
    (Or.inr (Or.inl rfl))

/-- Claim C7: every successfully created comment has its `votes` field
initialized to 0 and is stored as returned, and the outcome is unchanged under
any client-supplied `votes` value in the request payload. -/
theorem insertComment_votes_zero (db : DB) (rid : Nat) (req : CommentRequest)
    (nid : Nat) (now : Int) (d : DB) (c : Comment)
    (h : insertComment db rid req nid now = .ok (d, c)) :
    c.votes = 0 ∧ c ∈ d.comments
    ∧ ∀ v : Option Int, insertComment db rid { req with votes := v } nid now = .ok (d, c) := by
  obtain ⟨ou, ob, ov⟩ := req
  cases ou with
  | none => cases ob <;> exact Except.noConfusion h
  | some u =>
    cases ob with
    | none => exact Except.noConfusion h
    | some b =>
      simp only [insertComment] at h
      by_cases h1 : u = "" ∨ b = ""
      · rw [if_pos h1] at h
        exact Except.noConfusion h
      · rw [if_neg h1] at h
        by_cases h2 : db.users.all (fun usr => usr.username != u) = true
        · rw [if_pos h2] at h
          exact Except.noConfusion h
        · rw [if_neg h2] at h
          by_cases h3 : db.reviews.all (fun r => r.review_id != rid) = true
          · rw [if_pos h3] at h
            exact Except.noConfusion h
          · rw [if_neg h3] at h
            simp only [Except.ok.injEq, Prod.mk.injEq] at h
            obtain ⟨hd, hc⟩ := h
            subst hd
            subst hc
            refine ⟨rfl, by simp, ?_⟩
            intro v
            simp only [insertComment]
            rw [if_neg h1, if_neg h2, if_neg h3]

/-- The comment created in the C7 witness and the database state after the
insertion. -/
def exNewC : Comment := ⟨12, "alice", 1, "great", 0, 300⟩

def exDBins : DB := ⟨exDB.categories, exDB.users, exDB.reviews, exDB.comments ++ [exNewC]⟩

/-- Claim C7 witness: a valid request with a client-supplied `votes` of 99
still stores and returns the comment with `votes = 0`. -/
theorem insertComment_votes_zero_witness :
    exNewC.votes = 0 ∧ exNewC ∈ exDBins.comments
    ∧ insertComment exDB 1 ⟨some "alice", some "great", some 99⟩ 12 300
      = .ok (exDBins, exNewC) := by
  have h := insertComment_votes_zero exDB 1 ⟨some "alice", some "great", some 50⟩ 12 300
    exDBins exNewC rfl
  exact ⟨h.1, h.2.1, h.2.2 (some 99)⟩

/-- Claim C8: the read operations of the query layer leave the database state
unchanged, so repeating the same read on the resulting state returns the
identical result. -/
theorem reads_are_pure (db : DB) (rid : Nat) :
    (∀ d x, selectReviews db = .ok (d, x) → d = db ∧ selectReviews d = .ok (d, x))
    ∧ (∀ d x, selectReviewFromId db rid = .ok (d, x) →
      d = db ∧ selectReviewFromId d rid = .ok (d, x))
    ∧ (∀ d x, selectCommentsFromReview db rid = .ok (d, x) →
      d = db ∧ selectCommentsFromReview d rid = .ok (d, x))
    ∧ (∀ d x, listCategories db = .ok (d, x) → d = db ∧ listCategories d = .ok (d, x))
    ∧ (∀ d x, listUsers db = .ok (d, x) → d = db ∧ listUsers d = .ok (d, x)) := by
  refine ⟨?_, ?_, ?_, ?_, ?_⟩
  · intro d x he
    simp only [selectReviews, Except.ok.injEq, Prod.mk.injEq] at he
    obtain ⟨h1, h2⟩ := he
    subst h1
    subst h2
    exact ⟨rfl, rfl⟩
  · intro d x he
    cases hF : (db.reviews.filter (fun r => r.review_id == rid)).head? with
    | none =>
      unfold selectReviewFromId at he
      rw [hF] at he
      exact Except.noConfusion he
    | some r =>
      unfold selectReviewFromId at he
      rw [hF] at he
      simp only [Except.ok.injEq, Prod.mk.injEq] at he
      obtain ⟨h1, h2⟩ := he
      subst h1
      subst h2
      refine ⟨rfl, ?_⟩
      unfold selectReviewFromId
      rw [hF]
  · intro d x he
    by_cases hcond : (db.reviews.filter (fun r => r.review_id == rid)).length = 0
    · unfold selectCommentsFromReview at he
      rw [if_pos hcond] at he
      exact Except.noConfusion he
    · unfold selectCommentsFromReview at he
      rw [if_neg hcond] at he
      simp only [Except.ok.injEq, Prod.mk.injEq] at he
      obtain ⟨h1, h2⟩ := he
      subst h1
      subst h2
      refine ⟨rfl, ?_⟩
      unfold selectCommentsFromReview
      rw [if_neg hcond]
  · intro d x he
    simp only [listCategories, Except.ok.injEq, Prod.mk.injEq] at he
    obtain ⟨h1, h2⟩ := he
    subst h1
    subst h2
    exact ⟨rfl, rfl⟩
  · intro d x he
    simp only [listUsers, Except.ok.injEq, Prod.mk.injEq] at he
    obtain ⟨h1, h2⟩ := he
    subst h1
    subst h2
    exact ⟨rfl, rfl⟩

/-- Claim C8 witness: reading review 1 of the sample database leaves it
unchanged. -/
theorem reads_are_pure_witness :
    exDB = exDB ∧ selectReviewFromId exDB 1 = .ok (exDB, exR1) :=
  (reads_are_pure exDB 1).2.1 exDB exR1 rfl

/-- Claim C9: `patchComment` always resolves — it has no NotFound (or any
rejected) outcome — and when its UPDATE matches zero comment rows it resolves
with an absent row (`none`) and the state unchanged. -/
theorem patchComment_never_rejects (db : DB) (rid : Nat) (iv : Int) :
    (∃ p, patchComment db rid iv = .ok p)
    ∧ ((∀ c ∈ db.comments, (c.review_id : Int) ≠ iv) →
      patchComment db rid iv = .ok (db, none)) := by
  constructor
  · exact ⟨_, rfl⟩
  · intro h
    have hupd : db.comments.map (fun c =>
        if (c.review_id : Int) == iv then { c with votes := c.votes + (rid : Int) } else c)
        = db.comments := by
      conv_rhs => rw [← List.map_id db.comments]
      apply List.map_congr_left
      intro c hc
      rw [if_neg (by simpa using h c hc)]
      rfl
    have hfil : db.comments.filter (fun c => (c.review_id : Int) == iv) = [] := by
      rw [List.filter_eq_nil_iff]
      intro c hc
      simpa using h c hc
    simp only [patchComment]
    rw [hupd, hfil]
    rfl

/-- Claim C9 witness: no comment of the sample database belongs to review 7,
and `patchComment` still resolves, with no row and the state unchanged. -/
theorem patchComment_never_rejects_witness :
    patchComment exDB 3 7 = .ok (exDB, none) :=
  (patchComment_never_rejects exDB 3 7).2 (by decide)

/-- Filtering the updated comment table on the UPDATE's WHERE key returns
exactly the updated versions of the rows that matched, since the update leaves
`review_id` untouched. -/
theorem filter_update_comments (iv : Int) (rid : Nat) (l : List Comment) :
    (l.map (fun c =>
        if (c.review_id : Int) == iv then { c with votes := c.votes + (rid : Int) } else c)).filter
        (fun c => (c.review_id : Int) == iv)
      = (l.filter (fun c => (c.review_id : Int) == iv)).map
          (fun c => { c with votes := c.votes + (rid : Int) }) := by
  induction l with
  | nil => rfl
  | cons c cs ih =>
    by_cases hc : (c.review_id : Int) = iv
    · simp [List.filter_cons, hc]
      simpa using ih
    · simp [List.filter_cons, hc]
      simpa using ih

/-- Claim C10: every row of the `selectReviews` result carries a stored review
unchanged — only `comment_count` is computed, as the parse of the aggregate —
and `patchComment` reports only the head of the list of updated rows while the
whole table keeps its length (all matched rows are updated in place, but the
remaining updated rows are not surfaced to the caller). -/
theorem result_shaping (db : DB) (rid : Nat) (iv : Int) :
    (∀ d rows, selectReviews db = .ok (d, rows) →
      ∀ row ∈ rows,
        row.review ∈ db.reviews ∧ row.comment_count = countComments db row.review.review_id)
    ∧ ∃ d, patchComment db rid iv = .ok (d,
        ((db.comments.filter (fun c => (c.review_id : Int) == iv)).map
          (fun c => { c with votes := c.votes + (rid : Int) })).head?)
      ∧ d.comments.length = db.comments.length := by
  constructor
  · intro d rows he
    rcases selectReviews_rows_spec db with ⟨rows0, h0, -, hbwd, -⟩
    rw [h0] at he
    simp only [Except.ok.injEq, Prod.mk.injEq] at he
    obtain ⟨-, h2⟩ := he
    subst h2
    exact hbwd
  · refine ⟨{ db with comments := db.comments.map (fun c =>
        if (c.review_id : Int) == iv then { c with votes := c.votes + (rid : Int) }
        else c) }, ?_, ?_⟩
    · simp only [patchComment]
      rw [filter_update_comments]
    · simp only [List.length_map]

/-- Claim C10 witness: on the sample database, both comments of review 2 are
updated and only the first updated row is reported. -/
theorem result_shaping_witness :
    ((ReviewRow.mk exR2 2).review ∈ exDB.reviews
      ∧ (ReviewRow.mk exR2 2).comment_count
        = countComments exDB (ReviewRow.mk exR2 2).review.review_id)
    ∧ ∃ d, patchComment exDB 5 2 = .ok (d,
        ((exDB.comments.filter (fun c => (c.review_id : Int) == 2)).map
          (fun c => { c with votes := c.votes + (5 : Int) })).head?)
      ∧ d.comments.length = exDB.comments.length :=
  ⟨(result_shaping exDB 5 2).1 exDB [⟨exR2, 2⟩, ⟨exR1, 0⟩] rfl ⟨exR2, 2⟩ (by decide),
    (result_shaping exDB 5 2).2⟩

end NCGames
